import Mathlib

/-!
Verification development for the wealth-management portal API client
(`WealthPortalApiClient.tsx`).  The client is embedded shallowly: the
browser environment (fetch responses, random bytes, the SHA-256 digest,
storages and the page location) is passed in explicitly, and every
operation is a pure function from that environment and a `World` state to
a new state plus an outcome.  Definitions follow the source file; line
numbers in doc comments refer to `WealthPortalApiClient.tsx`.
-/

namespace WealthPortal

/-- Configuration object (source lines 4-10), taking the defaults used when
the corresponding environment variables are absent. -/
structure Config where
  hisafeUrl : String
  hisafeApiVersion : String
  featureType : String
  featureKey : String
  clientId : String
deriving DecidableEq

def config : Config :=
  { hisafeUrl := "https://demo.highgear.app/forms/fs"
    hisafeApiVersion := "9.0.0"
    featureType := "PORTAL"
    featureKey := "parago"
    clientId := "c1aff4bbdb082879b8965292df919011" }

/-- URL builder `getHisafeApiUrl` (lines 12-15). -/
def getHisafeApiUrl (path : String) : String :=
  let pre := config.hisafeUrl ++ "/api/" ++ config.hisafeApiVersion
  if path.startsWith "/" then pre ++ path else pre ++ "/" ++ path

/-- Standard base64 alphabet used by the `btoa` browser builtin. -/
def base64Alphabet : List Char :=
  "ABCDEFGHIJKLMNOPQRSTUVWXYZabcdefghijklmnopqrstuvwxyz0123456789+/".toList

def b64Char (n : Nat) : Char := base64Alphabet.getD n 'A'

/-- Characters produced by the `btoa` builtin applied to the binary string
`String.fromCharCode(...bytes)` (line 18): RFC 4648 base64 of the byte
list, including trailing `=` padding. -/
def btoaChars : List Nat → List Char
  | [] => []
  | [a] => [b64Char (a / 4), b64Char (a % 4 * 16), '=', '=']
  | [a, b] => [b64Char (a / 4), b64Char (a % 4 * 16 + b / 16), b64Char (b % 16 * 4), '=']
  | a :: b :: c :: rest =>
      b64Char (a / 4) :: b64Char (a % 4 * 16 + b / 16) ::
        b64Char (b % 16 * 4 + c / 64) :: b64Char (c % 64) :: btoaChars rest

/-- The first `replace` of line 19: a global single-character regex replace
is a character-wise substitution of `+` by `-`. -/
def plusRep (c : Char) : Char := if c = '+' then '-' else c

/-- The second `replace` of line 19: substitution of `/` by `_`. -/
def slashRep (c : Char) : Char := if c = '/' then '_' else c

/-- Function `encodeBase64Url` (lines 17-20):
`btoa(...).split("=")[0].replace(/\+/g, "-").replace(/\//g, "_")`.
Taking element `[0]` of the split at `=` is the prefix of the string before
its first `=` character. -/
def encodeBase64Url (value : List Nat) : String :=
  String.mk ((((btoaChars value).takeWhile (fun c => c ≠ '=')).map plusRep).map slashRep)

/-- UTF-8 bytes of a string, as produced by the `TextEncoder` builtin
(line 23). -/
def utf8Bytes (s : String) : List Nat :=
  s.toUTF8.toList.map (fun b => b.toNat)

/-- Function `generateCodeChallenge` (lines 22-25).  The SHA-256 digest is
the `crypto.subtle.digest` browser builtin, passed in abstractly as
`sha256`. -/
def generateCodeChallenge (sha256 : List Nat → List Nat) (codeVerifier : String) : String :=
  encodeBase64Url (sha256 (utf8Bytes codeVerifier))

/-- Characters the `application/x-www-form-urlencoded` serializer used by
`URLSearchParams.toString` leaves unchanged: ASCII alphanumerics and
`*`, `-`, `.`, `_`. -/
def isFormSafe (c : Char) : Bool :=
  c.isAlpha || c.isDigit || c = '*' || c = '-' || c = '.' || c = '_'

def hexDigit (n : Nat) : Char := "0123456789ABCDEF".toList.getD n '0'

/-- Form-url encoding of a single character: space becomes `+`, safe
characters pass through, anything else is percent-encoded per UTF-8
byte. -/
def formEncodeChar (c : Char) : List Char :=
  if c = ' ' then ['+']
  else if isFormSafe c then [c]
  else ((String.mk [c]).toUTF8.toList.map (fun b => b.toNat)).flatMap
    (fun b => ['%', hexDigit (b / 16), hexDigit (b % 16)])

def formEncode (s : String) : String :=
  String.mk (s.toList.flatMap formEncodeChar)

/-- Join with `&`, as `Array.prototype.join("&")` and the pair serializer of
`URLSearchParams.toString` do. -/
def joinAmp : List String → String
  | [] => ""
  | [x] => x
  | x :: y :: xs => x ++ "&" ++ joinAmp (y :: xs)

/-- Serialization of a `URLSearchParams` value built from a list of
key-value pairs. -/
def urlSearchParamsToString (ps : List (String × String)) : String :=
  joinAmp (ps.map (fun p => formEncode p.1 ++ "=" ++ formEncode p.2))

/-- Fixed query parameters appended to every request (line 33). -/
def alwaysAddParams : List (String × String) :=
  [("featureType", config.featureType), ("feature", config.featureKey)]

def alwaysAddParamsStr : String := urlSearchParamsToString alwaysAddParams

def TOKEN_LOCAL_STORAGE_KEY : String := "HISAFE_AUTH_TOKEN"

def CODE_VERIFIER_SESSION_STORAGE_KEY : String := "HISAFE_CODE_VERIFIER/"

def verifierKey (stateNonce : String) : String :=
  CODE_VERIFIER_SESSION_STORAGE_KEY ++ stateNonce

/-- Token pair returned by the token endpoint (`HisafeTokens`, lines
74-77). -/
structure HisafeTokens where
  access_token : String
  token_type : String
deriving DecidableEq

/-- String-keyed storage (sessionStorage), modelled as an association
list. -/
def storeGet (st : List (String × String)) (k : String) : Option String :=
  st.lookup k

def storeSet (st : List (String × String)) (k v : String) : List (String × String) :=
  (k, v) :: st.filter (fun p => p.1 ≠ k)

def storeRemove (st : List (String × String)) (k : String) : List (String × String) :=
  st.filter (fun p => p.1 ≠ k)

/-- Browser-visible state the client reads and mutates: the in-memory
`headers["Authorization"]` entry, the two storages, the page location
(origin plus pathname, and the parsed query parameters), any navigation
performed by assigning `window.location.href`, and a count of fetch
attempts.  `localTok` holds the parsed content of
`localStorage[TOKEN_LOCAL_STORAGE_KEY]`; `JSON.stringify` followed by
`JSON.parse` is the identity on the flat `HisafeTokens` record, so the
stored JSON string is modelled by the record itself. -/
structure World where
  headersAuth : Option String
  sessionStorage : List (String × String)
  localTok : Option HisafeTokens
  originPath : String
  locationSearch : List (String × String)
  navigatedTo : Option String
  fetches : Nat
deriving DecidableEq

/-- Current `window.location.href`, reconstructed from origin, pathname and
query parameters exactly as line 93 rebuilds it. -/
def locationHref (w : World) : String :=
  w.originPath ++
    (if w.locationSearch.isEmpty then "" else "?" ++ urlSearchParamsToString w.locationSearch)

/-- Result of the pure part of `getAuthorizeUrl` (lines 43-63), keeping the
verifier and state nonce it generated alongside the produced URL. -/
structure AuthorizeResult where
  url : String
  storedKey : String
  storedVerifier : String
  stateNonce : String

/-- Body of `getAuthorizeUrl` (lines 43-63), with the random source and the
SHA-256 digest passed in: `rand64` are the 64 random verifier bytes,
`rand8` the 8 random state bytes, `href` the current page URL used as
`redirect_uri`.  `JSON.stringify(logout)` is `"true"` or `"false"`. -/
def getAuthorizeUrlCore (sha256 : List Nat → List Nat) (rand64 rand8 : List Nat)
    (href : String) (logout : Bool) : AuthorizeResult :=
  let codeVerifier := encodeBase64Url rand64
  let codeChallenge := generateCodeChallenge sha256 codeVerifier
  let stateNonce := encodeBase64Url rand8
  let params : List (String × String) :=
    [("feature_type", config.featureType),
     ("feature_key", config.featureKey),
     ("response_type", "code"),
     ("client_id", config.clientId),
     ("redirect_uri", href),
     ("code_challenge_method", "S256"),
     ("code_challenge", codeChallenge),
     ("state", stateNonce),
     ("confirm", if logout then "true" else "false")]
  { url := getHisafeApiUrl ("oauth2/authorize?" ++ urlSearchParamsToString params)
    storedKey := verifierKey stateNonce
    storedVerifier := codeVerifier
    stateNonce := stateNonce }

/-- HTTP response as the client observes it: the status, the value
`response.json()` parses to, and the text `response.text()` reads. -/
structure HttpResponse (T : Type) where
  status : Nat
  json : T
  text : String
deriving DecidableEq

/-- Outcome of a `fetch` call: either a response arrived or the returned
promise rejected (network failure or abort). -/
inductive FetchOutcome (T : Type) where
  | resp (r : HttpResponse T)
  | netError (msg : String)
deriving DecidableEq

/-- Outcome of an async operation: normal return or a thrown error with the
given message. -/
inductive Outcome (T : Type) where
  | ok (value : T)
  | thrown (msg : String)
deriving DecidableEq

/-- Abstract environment pieces the auth flow draws on: the SHA-256
builtin, the bytes `crypto.getRandomValues` would produce for the next
verifier and state nonce, and the token endpoint's reply for the next
exchange request. -/
structure AuthEnv where
  sha256 : List Nat → List Nat
  rand64 : List Nat
  rand8 : List Nat
  exchange : FetchOutcome HisafeTokens

inductive Method where
  | GET
  | POST
  | PATCH
deriving DecidableEq

/-- Observable description of an issued fetch: its method, full URL, and
the `Authorization` header value attached (if any). -/
structure SentRequest where
  method : Method
  url : String
  authHeader : Option String
deriving DecidableEq

/-- Result of one `requestImpl` run. -/
structure Step (T : Type) where
  sent : SentRequest
  outcome : Outcome T
  logged : Option String
deriving DecidableEq

/-- Effect of `getAuthorizeUrl` on the session (line 48 stores the verifier
under the nonce-derived key) together with the produced URL. -/
def getAuthorizeUrlW (env : AuthEnv) (w : World) (logout : Bool) : World × String :=
  let r := getAuthorizeUrlCore env.sha256 env.rand64 env.rand8 (locationHref w) logout
  ({ w with sessionStorage := storeSet w.sessionStorage r.storedKey r.storedVerifier }, r.url)

/-- Scanner for the remainder of a JSON string literal (after its opening
quote), for escape-free strings.  Part of a minimal model of the
`JSON.parse` builtin, sufficient for the flat string-valued objects the
error-body logic is exercised with; `none` models `JSON.parse` throwing a
`SyntaxError`. -/
def scanStringLit : List Char → Option (List Char × List Char)
  | [] => none
  | c :: cs =>
    if c = '"' then some ([], cs)
    else if c = '\\' then none
    else match scanStringLit cs with
      | some (s, rest) => some (c :: s, rest)
      | none => none

def skipWs : List Char → List Char
  | [] => []
  | c :: cs => if c = ' ' ∨ c = '\t' ∨ c = '\n' ∨ c = '\r' then skipWs cs else c :: cs

/-- Members of a JSON object with string values: `"k" : "v"` separated by
commas.  Fuelled recursion; the fuel is at least the input length at every
call site, so exhaustion never fires there. -/
def parseMembers (fuel : Nat) (cs : List Char) : Option (List (String × String) × List Char) :=
  match fuel with
  | 0 => none
  | fuel + 1 =>
    match skipWs cs with
    | '"' :: cs1 =>
      match scanStringLit cs1 with
      | some (k, cs2) =>
        match skipWs cs2 with
        | ':' :: cs3 =>
          match skipWs cs3 with
          | '"' :: cs4 =>
            match scanStringLit cs4 with
            | some (v, cs5) =>
              match skipWs cs5 with
              | ',' :: cs6 =>
                match parseMembers fuel cs6 with
                | some (fields, rest) => some ((String.mk k, String.mk v) :: fields, rest)
                | none => none
              | cs6 => some ([(String.mk k, String.mk v)], cs6)
            | none => none
          | _ => none
        | _ => none
      | none => none
    | _ => none

/-- Minimal model of the `JSON.parse` builtin on flat objects with
escape-free string values (the shapes the specification exercises);
`none` models a thrown `SyntaxError`. -/
def parseJsonObjStr (s : String) : Option (List (String × String)) :=
  match skipWs s.toList with
  | '{' :: cs =>
    match skipWs cs with
    | '}' :: rest => if (skipWs rest).isEmpty then some [] else none
    | _ =>
      match parseMembers s.length cs with
      | some (fields, rest) =>
        match skipWs rest with
        | '}' :: rest2 => if (skipWs rest2).isEmpty then some fields else none
        | _ => none
      | none => none
  | _ => none

/-- Message the modelled `JSON.parse` `SyntaxError` carries. -/
def jsonParseErrorMessage : String := "SyntaxError: Unexpected token in JSON"

/-- Message-extraction step of `requestImpl` (lines 158-163): read the body
text; when its first character is `{` (the JS check `message[0] === "{"`),
`JSON.parse` it and, when the parsed object has a truthy `message` field
(present and non-empty), take that field, else keep the raw text.  The
result is what line 165 logs; `none` models `JSON.parse` throwing on a
malformed body whose first character is `{`. -/
def extractErrorMessage (body : String) : Option String :=
  if body.toList.head? = some '{' then
    match parseJsonObjStr body with
    | some fields =>
      match fields.lookup "message" with
      | some m => if m = "" then some body else some m
      | none => some body
    | none => none
  else some body

/-- Status and body dispatch of `requestImpl` (lines 150-167), minus the
world effects of the 401 branch: 2xx returns the parsed JSON; 401 invokes
the fallback when supplied and otherwise throws the authorization error;
any other status extracts a message for the log and throws an error whose
message carries the status code.  A rejected fetch propagates its error.
The second component is the text line 165 logs. -/
def handleResponse {T : Type} (f : FetchOutcome T) (on401 : Option (Unit → T)) :
    Outcome T × Option String :=
  match f with
  | .netError m => (.thrown m, none)
  | .resp r =>
    if 200 ≤ r.status ∧ r.status ≤ 299 then (.ok r.json, none)
    else if r.status = 401 then
      match on401 with
      | some h => (.ok (h ()), none)
      | none => (.thrown "Unauthorized - redirecting to login", none)
    else
      match extractErrorMessage r.text with
      | some m => (.thrown ("Request failed with " ++ toString r.status), some m)
      | none => (.thrown jsonParseErrorMessage, none)

/-- Function `requestImpl` (lines 133-168).  Line 134 appends the fixed
query parameters with `&` or `?` depending on whether the url already
contains `?`; the fetch carries the headers table (whose `Authorization`
entry is `w.headersAuth`); on status 401 line 153 navigates the browser to
a freshly built authorization URL (which also stores a new verifier)
before the fallback or the throw. -/
def requestImplW {T : Type} (env : AuthEnv) (w : World) (method : Method) (url : String)
    (f : FetchOutcome T) (on401 : Option (Unit → T)) : World × Step T :=
  let fullUrl :=
    getHisafeApiUrl (url ++ (if url.toList.contains '?' then "&" else "?") ++ alwaysAddParamsStr)
  let sent : SentRequest := { method := method, url := fullUrl, authHeader := w.headersAuth }
  let w1 := { w with fetches := w.fetches + 1 }
  let o := handleResponse f on401
  let w2 :=
    match f with
    | .resp r =>
      if r.status = 401 then
        let (wa, aurl) := getAuthorizeUrlW env w1 false
        { wa with navigatedTo := some aurl }
      else w1
    | .netError _ => w1
  (w2, { sent := sent, outcome := o.1, logged := o.2 })

/-- Final part of `initAuth` (lines 118-125): when the durable store holds
a token pair, compose the `Authorization` header from it; otherwise
navigate the browser to a fresh authorization URL. -/
def initAuthFinish (env : AuthEnv) (w : World) : World × Outcome Unit :=
  match w.localTok with
  | some t => ({ w with headersAuth := some (t.token_type ++ " " ++ t.access_token) }, .ok ())
  | none =>
    let (w1, aurl) := getAuthorizeUrlW env w false
    ({ w1 with navigatedTo := some aurl }, .ok ())

/-- Function `initAuth` (lines 65-126).  When the `Authorization` header is
already set it returns at once.  Otherwise, when the page query holds both
`code` and `state`, it first strips them from the visible URL
(`history.replaceState`, lines 90-93), then exchanges the code for tokens
via `requestImpl` (passing the session-stored verifier for that state in
the body); on success it removes the verifier entry and persists the token
pair, on failure it rethrows.  Finally it loads the header from the stored
token or navigates away. -/
def initAuthW (env : AuthEnv) (w : World) : World × Outcome Unit :=
  if w.headersAuth.isSome then (w, .ok ())
  else
    match w.locationSearch.lookup "code", w.locationSearch.lookup "state" with
    | some _authCode, some stateNonce =>
      let params1 :=
        (w.locationSearch.filter (fun p => p.1 ≠ "code")).filter (fun p => p.1 ≠ "state")
      let w1 := { w with locationSearch := params1 }
      let res := requestImplW env w1 .POST "oauth2/token" env.exchange none
      match res.2.outcome with
      | .thrown m => (res.1, .thrown m)
      | .ok tokens =>
        initAuthFinish env
          { res.1 with sessionStorage := storeRemove res.1.sessionStorage (verifierKey stateNonce),
                       localTok := some tokens }
    | _, _ => initAuthFinish env w

/-- Result of a `request` run: the final world, the fetch that was issued
for the caller's url (absent when `initAuth` threw first), and the
outcome. -/
structure CallResult (T : Type) where
  world : World
  sent : Option SentRequest
  outcome : Outcome T

/-- Function `request` (lines 128-131): `initAuth` followed by
`requestImpl`; a throw from `initAuth` propagates before any fetch for the
caller's url is issued. -/
def requestW {T : Type} (env : AuthEnv) (w : World) (method : Method) (url : String)
    (f : FetchOutcome T) (on401 : Option (Unit → T)) : CallResult T :=
  let r := initAuthW env w
  match r.2 with
  | .thrown m => { world := r.1, sent := none, outcome := .thrown m }
  | .ok _ =>
    let (w2, step) := requestImplW env r.1 method url f on401
    { world := w2, sent := some step.sent, outcome := step.outcome }

/-- Identity-probe payload (`SelfResult`, lines 171-173). -/
structure SelfResult where
  name : String
deriving DecidableEq

/-- Function `testAuth` (lines 220-227): a `GET self` request whose 401
fallback produces `null` and whose surrounding `try`/`catch` maps any
thrown error to `null`. -/
def testAuthW (env : AuthEnv) (w : World) (f : FetchOutcome (Option SelfResult)) :
    World × Outcome (Option SelfResult) :=
  let r := requestW env w .GET "self" f (some (fun _ => none))
  match r.outcome with
  | .ok v => (r.world, .ok v)
  | .thrown _ => (r.world, .ok none)

/-- Series-id query segment built by `getPortalData` (line 234):
`seriesIds.map(s => "seriesId=" + s).join("&")`. -/
def seriesQuerySegment (seriesIds : List Nat) : String :=
  joinAmp (seriesIds.map (fun s => "seriesId=" ++ toString s))

/-- Path `getPortalData` requests (line 235). -/
def getPortalDataPath (seriesIds : List Nat) : String :=
  "portal/load?" ++ seriesQuerySegment seriesIds

/-- Upload response entry (`result[0].blob_id`, line 277). -/
structure BlobRec where
  blob_id : String
deriving DecidableEq

/-- Result of an `uploadFile` run. -/
structure UploadResult where
  world : World
  sent : Option SentRequest
  outcome : Outcome String

/-- Function `uploadFile` (lines 259-281): `initAuth`, then a multipart
POST to `file-blob` carrying only the `Authorization` header; on an OK
response (status 200-299) it returns `result[0].blob_id` — indexing an
empty array models the `TypeError` thrown on reading `blob_id` of
`undefined` — and on any other response it throws the fixed
`"File upload failed"` error without reading the body. -/
def uploadFileW (env : AuthEnv) (w : World) (f : FetchOutcome (List BlobRec)) : UploadResult :=
  let r := initAuthW env w
  match r.2 with
  | .thrown m => { world := r.1, sent := none, outcome := .thrown m }
  | .ok _ =>
    let sent : SentRequest :=
      { method := .POST, url := getHisafeApiUrl ("file-blob?" ++ alwaysAddParamsStr),
        authHeader := r.1.headersAuth }
    let w2 := { r.1 with fetches := r.1.fetches + 1 }
    match f with
    | .netError m => { world := w2, sent := some sent, outcome := .thrown m }
    | .resp resp =>
      if 200 ≤ resp.status ∧ resp.status ≤ 299 then
        match resp.json.head? with
        | some b => { world := w2, sent := some sent, outcome := .ok b.blob_id }
        | none => { world := w2, sent := some sent, outcome := .thrown "TypeError" }
      else { world := w2, sent := some sent, outcome := .thrown "File upload failed" }

/-- Base64url encoding as the specification words it: standard base64 with
`+` mapped to `-`, `/` mapped to `_`, and all `=` padding removed.  Proved
below to agree with `encodeBase64Url` from the source. -/
def specBase64Url (bytes : List Nat) : String :=
  String.mk ((((btoaChars bytes).filter (fun c => c ≠ '=')).map plusRep).map slashRep)

/-- Concrete token pair for witnesses. -/
def tokensFix : HisafeTokens := { access_token := "A", token_type := "Bearer" }

/-- Concrete environment for witnesses. -/
def envFix : AuthEnv :=
  { sha256 := fun _ => [], rand64 := [], rand8 := [],
    exchange := FetchOutcome.netError "net down" }

/-- Concrete world holding a bearer token. -/
def wAuthed : World :=
  { headersAuth := some "Bearer T"
    sessionStorage := []
    localTok := some { access_token := "T", token_type := "Bearer" }
    originPath := "https://portal.example/app"
    locationSearch := []
    navigatedTo := none
    fetches := 0 }

/-- Environment whose exchange request succeeds with `tokensFix`. -/
def envExch : AuthEnv :=
  { sha256 := fun _ => [], rand64 := [], rand8 := [],
    exchange := .resp { status := 200, json := tokensFix, text := "" } }

/-- World representing the redirect landing page: no header, a stored
verifier for state `st1`, and `code`/`state` in the query. -/
def wCallback : World :=
  { headersAuth := none
    sessionStorage := [("HISAFE_CODE_VERIFIER/st1", "ver1")]
    localTok := none
    originPath := "https://portal.example/app"
    locationSearch := [("code", "abc"), ("state", "st1")]
    navigatedTo := none
    fetches := 0 }

/-! Basic facts about the request executor. -/

/-- The step record of `requestImplW` projects to its components regardless
of the branch taken for the world effects. -/
theorem requestImplW_sent {T : Type} (env : AuthEnv) (w : World) (method : Method)
    (url : String) (f : FetchOutcome T) (on401 : Option (Unit → T)) :
    (requestImplW env w method url f on401).2.sent =
      { method := method,
        url := getHisafeApiUrl (url ++ (if url.toList.contains '?' then "&" else "?") ++ alwaysAddParamsStr),
        authHeader := w.headersAuth } := rfl

theorem requestImplW_outcome {T : Type} (env : AuthEnv) (w : World) (method : Method)
    (url : String) (f : FetchOutcome T) (on401 : Option (Unit → T)) :
    (requestImplW env w method url f on401).2.outcome = (handleResponse f on401).1 := rfl

theorem requestImplW_logged {T : Type} (env : AuthEnv) (w : World) (method : Method)
    (url : String) (f : FetchOutcome T) (on401 : Option (Unit → T)) :
    (requestImplW env w method url f on401).2.logged = (handleResponse f on401).2 := rfl

/-- The world effects of `requestImplW` never touch the header table, the
durable token, the page location or the query parameters. -/
theorem requestImplW_world_fields {T : Type} (env : AuthEnv) (w : World) (method : Method)
    (url : String) (f : FetchOutcome T) (on401 : Option (Unit → T)) :
    (requestImplW env w method url f on401).1.localTok = w.localTok ∧
    (requestImplW env w method url f on401).1.headersAuth = w.headersAuth ∧
    (requestImplW env w method url f on401).1.locationSearch = w.locationSearch ∧
    (requestImplW env w method url f on401).1.originPath = w.originPath ∧
    (requestImplW env w method url f on401).1.fetches = w.fetches + 1 := by
  cases f with
  | netError m => simp [requestImplW]
  | resp r =>
    by_cases h : r.status = 401 <;> simp [requestImplW, getAuthorizeUrlW, h]

/-! Association-list lemmas for the storages and the query parameters. -/

theorem storeGet_storeSet (st : List (String × String)) (k v : String) :
    storeGet (storeSet st k v) k = some v := by
  simp [storeGet, storeSet, List.lookup]

theorem storeGet_storeRemove (st : List (String × String)) (k : String) :
    storeGet (storeRemove st k) k = none := by
  unfold storeGet storeRemove
  induction st with
  | nil => simp
  | cons p t ih =>
    obtain ⟨pk, pv⟩ := p
    by_cases hp : pk = k
    · simpa [List.filter_cons, hp] using ih
    · have hk : (k == pk) = false := by
        simp only [beq_eq_false_iff_ne, ne_eq]
        exact fun hkk => hp hkk.symm
      have hcond : (fun (p : String × String) => decide (p.1 ≠ k)) (pk, pv) = true := by
        simp [hp]
      rw [List.filter_cons, if_pos hcond, List.lookup, hk]
      exact ih

theorem lookup_filter_ne (l : List (String × String)) (k : String) :
    (l.filter (fun p => p.1 ≠ k)).lookup k = none := by
  have := storeGet_storeRemove l k
  simpa [storeGet, storeRemove] using this

theorem lookup_filter_subset (l : List (String × String)) (k : String)
    (q : String × String → Bool) (h : l.lookup k = none) :
    (l.filter q).lookup k = none := by
  induction l with
  | nil => simp
  | cons p t ih =>
    obtain ⟨pk, pv⟩ := p
    cases hbk : (k == pk) with
    | true => simp [List.lookup, hbk] at h
    | false =>
      simp only [List.lookup, hbk] at h
      by_cases hq : q (pk, pv) = true
      · simp only [List.filter_cons, if_pos hq, List.lookup, hbk]
        exact ih h
      · simp only [List.filter_cons, if_neg hq]
        exact ih h

/-- Claim C9: for the series-id list `[3, 7, 42]`, `getPortalData` builds
the query string segment `seriesId=3&seriesId=7&seriesId=42` — one
`seriesId` parameter per id, in input order, joined with `&` — and
requests the path `portal/load?` followed by that segment. -/
theorem getPortalData_seriesId_query :
    seriesQuerySegment [3, 7, 42] = "seriesId=3&seriesId=7&seriesId=42" ∧
    getPortalDataPath [3, 7, 42] = "portal/load?seriesId=3&seriesId=7&seriesId=42" := by
  exact ⟨rfl, rfl⟩

/-- Claim C8: for every relative path, the request executor appends the
fixed `featureType`/`feature` query parameters using `?` when the path has
no existing query string and `&` when it does. -/
theorem requestImpl_appends_fixed_params (T : Type) (env : AuthEnv) (w : World)
    (method : Method) (url : String) (f : FetchOutcome T) (on401 : Option (Unit → T)) :
    ('?' ∉ url.toList →
      (requestImplW env w method url f on401).2.sent.url =
        getHisafeApiUrl (url ++ "?" ++ alwaysAddParamsStr)) ∧
    ('?' ∈ url.toList →
      (requestImplW env w method url f on401).2.sent.url =
        getHisafeApiUrl (url ++ "&" ++ alwaysAddParamsStr)) := by
  constructor <;> intro h <;> rw [requestImplW_sent] <;> simp only [String.toList] at h <;>
    simp [h]

/-- Witness for C8 at a concrete path without and with a query string. -/
theorem requestImpl_appends_fixed_params_witness :
    (requestImplW envFix wAuthed Method.GET "portal/metadata"
        (FetchOutcome.netError "x" : FetchOutcome Unit) none).2.sent.url =
      getHisafeApiUrl ("portal/metadata" ++ "?" ++ alwaysAddParamsStr) ∧
    (requestImplW envFix wAuthed Method.GET "portal/load?seriesId=3"
        (FetchOutcome.netError "x" : FetchOutcome Unit) none).2.sent.url =
      getHisafeApiUrl ("portal/load?seriesId=3" ++ "&" ++ alwaysAddParamsStr) := by
  constructor
  · exact (requestImpl_appends_fixed_params Unit envFix wAuthed Method.GET "portal/metadata"
      (FetchOutcome.netError "x") none).1 (by decide)
  · exact (requestImpl_appends_fixed_params Unit envFix wAuthed Method.GET "portal/load?seriesId=3"
      (FetchOutcome.netError "x") none).2 (by decide)

/-- Claim C3: for every request method and path, a 401 response makes the
request executor navigate the browser to the authorization URL; when a
401-fallback producer was supplied it returns the fallback's value without
throwing, and when none was supplied it throws the authorization error. -/
theorem requestImpl_401_fallback (T : Type) (env : AuthEnv) (w : World) (method : Method)
    (url : String) (r : HttpResponse T) (on401 : Option (Unit → T)) (h : r.status = 401) :
    (requestImplW env w method url (.resp r) on401).1.navigatedTo =
      some (getAuthorizeUrlCore env.sha256 env.rand64 env.rand8 (locationHref w) false).url ∧
    (∀ g : Unit → T, on401 = some g →
      (requestImplW env w method url (.resp r) on401).2.outcome = .ok (g ())) ∧
    (on401 = none →
      (requestImplW env w method url (.resp r) on401).2.outcome =
        .thrown "Unauthorized - redirecting to login") := by
  have h2 : ¬(200 ≤ r.status ∧ r.status ≤ 299) := by omega
  refine ⟨?_, ?_, ?_⟩
  · simp [requestImplW, getAuthorizeUrlW, h, locationHref]
  · intro g hg
    rw [requestImplW_outcome]
    simp [handleResponse, h, hg, h2]
  · intro hg
    rw [requestImplW_outcome]
    simp [handleResponse, h, hg, h2]

/-- Witness for C3 at a concrete 401 response, with and without a
fallback. -/
theorem requestImpl_401_fallback_witness :
    (requestImplW envFix wAuthed Method.GET "self"
        (FetchOutcome.resp { status := 401, json := (7 : Nat), text := "" })
        (some (fun _ => (5 : Nat)))).2.outcome = Outcome.ok 5 ∧
    (requestImplW envFix wAuthed Method.GET "self"
        (FetchOutcome.resp { status := 401, json := (7 : Nat), text := "" })
        (none : Option (Unit → Nat))).2.outcome =
      Outcome.thrown "Unauthorized - redirecting to login" := by
  constructor
  · exact (requestImpl_401_fallback Nat envFix wAuthed Method.GET "self"
      { status := 401, json := 7, text := "" } (some (fun _ => 5)) rfl).2.1 _ rfl
  · exact (requestImpl_401_fallback Nat envFix wAuthed Method.GET "self"
      { status := 401, json := 7, text := "" } none rfl).2.2 rfl

/-- Claim C7: with the auth header set, a file whose upload response is OK
with body `[..\x7bblob_id:"abc123"\x7d..]` makes `uploadFile` return
`"abc123"`, and every non-OK upload response makes it fail with the fixed
`"File upload failed"` error, whatever the response body holds — no
structured message is parsed from it. -/
theorem uploadFile_blobId_and_error (env : AuthEnv) (w : World) (a : String)
    (hh : w.headersAuth = some a) :
    (∀ r : HttpResponse (List BlobRec), 200 ≤ r.status → r.status ≤ 299 →
      r.json = [{ blob_id := "abc123" }] →
      (uploadFileW env w (.resp r)).outcome = .ok "abc123") ∧
    (∀ r : HttpResponse (List BlobRec), ¬(200 ≤ r.status ∧ r.status ≤ 299) →
      (uploadFileW env w (.resp r)).outcome = .thrown "File upload failed") := by
  have hinit : initAuthW env w = (w, .ok ()) := by
    simp [initAuthW, hh]
  constructor
  · intro r h1 h2 hj
    simp [uploadFileW, hinit, hj, if_pos (And.intro h1 h2)]
  · intro r hno
    simp [uploadFileW, hinit, if_neg hno]

/-- Witness for C7 at concrete OK and non-OK upload responses. -/
theorem uploadFile_blobId_and_error_witness :
    (uploadFileW envFix wAuthed
        (.resp { status := 200, json := [{ blob_id := "abc123" }], text := "" })).outcome =
      Outcome.ok "abc123" ∧
    (uploadFileW envFix wAuthed
        (.resp { status := 500, json := [], text := "boom" })).outcome =
      Outcome.thrown "File upload failed" := by
  constructor
  · exact (uploadFile_blobId_and_error envFix wAuthed "Bearer T" rfl).1
      { status := 200, json := [{ blob_id := "abc123" }], text := "" }
      (by decide) (by decide) rfl
  · exact (uploadFile_blobId_and_error envFix wAuthed "Bearer T" rfl).2
      { status := 500, json := [], text := "boom" } (by decide)

/-- Claim C10: `testAuth` never rejects; whatever the identity probe does —
success, 401, another HTTP failure, or a transport exception, and also
when the auth initialization itself throws — it returns normally, with the
parsed `SelfResult` value on a 2xx response and `null` in every failure
case. -/
theorem testAuth_never_rejects (env : AuthEnv) (w : World) (f : FetchOutcome (Option SelfResult)) :
    (testAuthW env w f).2 =
      Outcome.ok
        (match (initAuthW env w).2 with
         | .thrown _ => none
         | .ok _ =>
           match f with
           | .netError _ => none
           | .resp r => if 200 ≤ r.status ∧ r.status ≤ 299 then r.json else none) := by
  rcases hi : initAuthW env w with ⟨w1, o⟩
  cases o with
  | thrown m => simp [testAuthW, requestW, hi]
  | ok u =>
    cases f with
    | netError m => simp [testAuthW, requestW, requestImplW_outcome, handleResponse, hi]
    | resp r =>
      by_cases h2 : 200 ≤ r.status ∧ r.status ≤ 299
      · simp [testAuthW, requestW, requestImplW_outcome, handleResponse, hi, h2]
      · by_cases h4 : r.status = 401
        · simp [testAuthW, requestW, requestImplW_outcome, handleResponse, hi, h2, h4]
        · cases hm : extractErrorMessage r.text with
          | some m =>
            simp [testAuthW, requestW, requestImplW_outcome, handleResponse, hi, h2, h4, hm]
          | none =>
            simp [testAuthW, requestW, requestImplW_outcome, handleResponse, hi, h2, h4, hm]

/-- Counterexample for C2: a 500 response whose body is the JSON object
with message field `"X"` makes the executor throw an error whose message
is `"Request failed with 500"`, not `"X"` as the claim states. -/
theorem requestImpl_error_message_counterexample :
    (requestImplW envFix wAuthed Method.GET "self"
        (FetchOutcome.resp { status := 500, json := (), text := "\x7b\"message\":\"X\"\x7d" })
        none).2.outcome = Outcome.thrown "Request failed with 500" ∧
    "Request failed with 500" ≠ "X" := by
  constructor
  · rfl
  · decide

/-- Claim C2 as amended: on a non-2xx, non-401 response the executor
extracts the body-derived text — the `message` field `"X"` of a JSON
object body, or the raw non-JSON text `"oops"` — but only logs it; the
error it throws carries the HTTP status code in the fixed message
`Request failed with {status}`, for every method, path and such status. -/
theorem requestImpl_error_status_message (T : Type) (j : T) (env : AuthEnv) (w : World)
    (method : Method) (url : String) (on401 : Option (Unit → T)) (status : Nat)
    (h1 : ¬(200 ≤ status ∧ status ≤ 299)) (h2 : status ≠ 401) :
    ((requestImplW env w method url
        (.resp { status := status, json := j, text := "\x7b\"message\":\"X\"\x7d" })
        on401).2.logged = some "X" ∧
     (requestImplW env w method url
        (.resp { status := status, json := j, text := "\x7b\"message\":\"X\"\x7d" })
        on401).2.outcome = .thrown ("Request failed with " ++ toString status)) ∧
    ((requestImplW env w method url
        (.resp { status := status, json := j, text := "oops" }) on401).2.logged = some "oops" ∧
     (requestImplW env w method url
        (.resp { status := status, json := j, text := "oops" }) on401).2.outcome =
       .thrown ("Request failed with " ++ toString status)) := by
  have hx : extractErrorMessage "\x7b\"message\":\"X\"\x7d" = some "X" := rfl
  have ho : extractErrorMessage "oops" = some "oops" := rfl
  refine ⟨⟨?_, ?_⟩, ⟨?_, ?_⟩⟩ <;>
    first
      | (rw [requestImplW_logged]; simp [handleResponse, h1, h2, hx, ho])
      | (rw [requestImplW_outcome]; simp [handleResponse, h1, h2, hx, ho])

/-- Witness for the amended C2 at status 500. -/
theorem requestImpl_error_status_message_witness :
    (requestImplW envFix wAuthed Method.GET "self"
        (FetchOutcome.resp { status := 500, json := (), text := "\x7b\"message\":\"X\"\x7d" })
        none).2.logged = some "X" ∧
    (requestImplW envFix wAuthed Method.GET "self"
        (FetchOutcome.resp { status := 500, json := (), text := "oops" })
        none).2.logged = some "oops" := by
  constructor
  · exact (requestImpl_error_status_message Unit () envFix wAuthed Method.GET "self" none 500
      (by omega) (by omega)).1.1
  · exact (requestImpl_error_status_message Unit () envFix wAuthed Method.GET "self" none 500
      (by omega) (by omega)).2.1

/-- With no header and no `code` query parameter, `initAuth` goes straight
to its final token-loading step. -/
theorem initAuthW_noCode (env : AuthEnv) (w : World) (hh : w.headersAuth = none)
    (hcode : w.locationSearch.lookup "code" = none) :
    initAuthW env w = initAuthFinish env w := by
  simp [initAuthW, hh, hcode]

/-- The final step of `initAuth` with a stored token composes the header
from it and changes nothing else. -/
theorem initAuthFinish_some (env : AuthEnv) (w : World) (t : HisafeTokens)
    (h : w.localTok = some t) :
    initAuthFinish env w =
      ({ w with headersAuth := some (t.token_type ++ " " ++ t.access_token) }, Outcome.ok ()) := by
  simp [initAuthFinish, h]

/-- Evaluation of `initAuth` on the successful-exchange path: with no
header set, `code` and `state` present, and a 2xx exchange response, the
run strips the two parameters, performs one fetch, deletes the verifier
entry for the state, persists the token pair and composes the header. -/
theorem initAuthW_success_eq (env : AuthEnv) (w : World) (c s : String)
    (r : HttpResponse HisafeTokens)
    (hh : w.headersAuth = none)
    (hc : w.locationSearch.lookup "code" = some c)
    (hs : w.locationSearch.lookup "state" = some s)
    (hex : env.exchange = .resp r)
    (h2 : 200 ≤ r.status ∧ r.status ≤ 299) :
    initAuthW env w =
      ({ headersAuth := some (r.json.token_type ++ " " ++ r.json.access_token),
         sessionStorage := storeRemove w.sessionStorage (verifierKey s),
         localTok := some r.json,
         originPath := w.originPath,
         locationSearch :=
           (w.locationSearch.filter (fun p => p.1 ≠ "code")).filter (fun p => p.1 ≠ "state"),
         navigatedTo := w.navigatedTo,
         fetches := w.fetches + 1 }, Outcome.ok ()) := by
  have h401 : ¬r.status = 401 := by omega
  simp [initAuthW, hh, hc, hs, hex, requestImplW, handleResponse, initAuthFinish, h2, h401]

/-- Claim C4: completing the exchange for a `{code, state}` pair deletes
the session-stored verifier keyed by that state exactly once: the run
strips `code` and `state` from the visible URL before the exchange and
performs exactly one exchange fetch; a second invocation afterwards — with
the header still set, or after a reload that clears the in-memory header —
performs no further fetch and no further deletion, because the parameters
are gone from the location. -/
theorem initAuth_consumes_verifier_once (env : AuthEnv) (w : World) (c s cv : String)
    (r : HttpResponse HisafeTokens)
    (hh : w.headersAuth = none)
    (hc : w.locationSearch.lookup "code" = some c)
    (hs : w.locationSearch.lookup "state" = some s)
    (_hv : storeGet w.sessionStorage (verifierKey s) = some cv)
    (hex : env.exchange = .resp r)
    (h2 : 200 ≤ r.status ∧ r.status ≤ 299) :
    storeGet (initAuthW env w).1.sessionStorage (verifierKey s) = none ∧
    (initAuthW env w).1.locationSearch.lookup "code" = none ∧
    (initAuthW env w).1.locationSearch.lookup "state" = none ∧
    (initAuthW env w).1.fetches = w.fetches + 1 ∧
    initAuthW env (initAuthW env w).1 = ((initAuthW env w).1, Outcome.ok ()) ∧
    (∀ env2 : AuthEnv,
      (initAuthW env2 { (initAuthW env w).1 with headersAuth := none }).1.sessionStorage =
        (initAuthW env w).1.sessionStorage ∧
      (initAuthW env2 { (initAuthW env w).1 with headersAuth := none }).1.fetches =
        (initAuthW env w).1.fetches) := by
  have hkey := initAuthW_success_eq env w c s r hh hc hs hex h2
  have hcode : ((w.locationSearch.filter (fun p => p.1 ≠ "code")).filter
      (fun p => p.1 ≠ "state")).lookup "code" = none :=
    lookup_filter_subset _ _ _ (lookup_filter_ne _ _)
  refine ⟨?_, ?_, ?_, ?_, ?_, ?_⟩
  · rw [hkey]
    exact storeGet_storeRemove _ _
  · rw [hkey]
    exact hcode
  · rw [hkey]
    exact lookup_filter_ne _ _
  · rw [hkey]
  · rw [hkey]
    simp [initAuthW]
  · intro env2
    rw [hkey]
    rw [initAuthW_noCode env2 _ rfl hcode, initAuthFinish_some env2 _ r.json rfl]
    exact ⟨rfl, rfl⟩

/-- Witness for C4 at a concrete world with a stored verifier. -/
theorem initAuth_consumes_verifier_once_witness :
    storeGet (initAuthW envExch wCallback).1.sessionStorage (verifierKey "st1") = none ∧
    (initAuthW envExch wCallback).1.locationSearch.lookup "code" = none := by
  have h := initAuth_consumes_verifier_once envExch wCallback "abc" "st1" "ver1"
    { status := 200, json := tokensFix, text := "" } rfl rfl rfl rfl rfl (by decide)
  exact ⟨h.1, h.2.1⟩

/-- Claim C5: a successful exchange persists the `{token_type,
access_token}` pair verbatim as returned by the token endpoint, and every
subsequent request — including the file upload — carries the header
`Authorization: token_type + " " + access_token`; when no token is
available after exchange or load, the client navigates the browser to the
authorization URL. -/
theorem initAuth_stores_token_and_bearer (env : AuthEnv) (w : World) (c s : String)
    (r : HttpResponse HisafeTokens)
    (hh : w.headersAuth = none)
    (hc : w.locationSearch.lookup "code" = some c)
    (hs : w.locationSearch.lookup "state" = some s)
    (hex : env.exchange = .resp r)
    (h2 : 200 ≤ r.status ∧ r.status ≤ 299) :
    (initAuthW env w).1.localTok = some r.json ∧
    (initAuthW env w).1.headersAuth =
      some (r.json.token_type ++ " " ++ r.json.access_token) ∧
    (∀ (T : Type) (env2 : AuthEnv) (method : Method) (url : String) (f : FetchOutcome T)
        (on401 : Option (Unit → T)),
      (requestW env2 (initAuthW env w).1 method url f on401).sent =
        some { method := method,
               url := getHisafeApiUrl
                 (url ++ (if url.toList.contains '?' then "&" else "?") ++ alwaysAddParamsStr),
               authHeader := some (r.json.token_type ++ " " ++ r.json.access_token) }) ∧
    (∀ (env2 : AuthEnv) (f : FetchOutcome (List BlobRec)),
      (uploadFileW env2 (initAuthW env w).1 f).sent =
        some { method := Method.POST,
               url := getHisafeApiUrl ("file-blob?" ++ alwaysAddParamsStr),
               authHeader := some (r.json.token_type ++ " " ++ r.json.access_token) }) ∧
    (∀ (env2 : AuthEnv) (w2 : World), w2.headersAuth = none →
      w2.locationSearch.lookup "code" = none → w2.localTok = none →
      (initAuthW env2 w2).1.navigatedTo =
        some (getAuthorizeUrlCore env2.sha256 env2.rand64 env2.rand8 (locationHref w2) false).url) := by
  have hkey := initAuthW_success_eq env w c s r hh hc hs hex h2
  refine ⟨?_, ?_, ?_, ?_, ?_⟩
  · rw [hkey]
  · rw [hkey]
  · intro T env2 method url f on401
    rw [hkey]
    simp [requestW, initAuthW, requestImplW]
  · intro env2 f
    rw [hkey]
    cases f with
    | netError m => simp [uploadFileW, initAuthW]
    | resp rr =>
      by_cases hok : 200 ≤ rr.status ∧ rr.status ≤ 299
      · cases hj : rr.json.head? with
        | some b => simp [uploadFileW, initAuthW, hok, hj]
        | none => simp [uploadFileW, initAuthW, hok, hj]
      · simp [uploadFileW, initAuthW, hok]
  · intro env2 w2 h1 hcode h3
    simp [initAuthW, h1, hcode, initAuthFinish, h3, getAuthorizeUrlW]

/-- Witness for C5 at a concrete successful exchange. -/
theorem initAuth_stores_token_and_bearer_witness :
    (initAuthW envExch wCallback).1.localTok = some tokensFix ∧
    (initAuthW envExch wCallback).1.headersAuth = some "Bearer A" := by
  have h := initAuth_stores_token_and_bearer envExch wCallback "abc" "st1"
    { status := 200, json := tokensFix, text := "" } rfl rfl rfl rfl (by decide)
  exact ⟨h.1, h.2.1⟩

/-- Claim C6: when the token-exchange request fails or is aborted, no
token is written to durable storage — the stored-token state is unchanged
— the failure propagates to the caller of `request`, and no request for
the caller's url is issued; persistence happens only after a successful
exchange response. -/
theorem initAuth_failed_exchange_stores_nothing (env : AuthEnv) (w : World) (c s m : String)
    (hh : w.headersAuth = none)
    (hc : w.locationSearch.lookup "code" = some c)
    (hs : w.locationSearch.lookup "state" = some s)
    (hf : (handleResponse env.exchange (none : Option (Unit → HisafeTokens))).1 = .thrown m) :
    (initAuthW env w).1.localTok = w.localTok ∧
    (initAuthW env w).2 = .thrown m ∧
    (∀ (T : Type) (method : Method) (url : String) (f : FetchOutcome T)
        (on401 : Option (Unit → T)),
      (requestW env w method url f on401).outcome = .thrown m ∧
      (requestW env w method url f on401).sent = none) := by
  have hw1 := requestImplW_world_fields env
    { w with locationSearch :=
        (w.locationSearch.filter (fun p => p.1 ≠ "code")).filter (fun p => p.1 ≠ "state") }
    Method.POST "oauth2/token" env.exchange none
  have hkey : initAuthW env w =
      ((requestImplW env
          { w with locationSearch :=
              (w.locationSearch.filter (fun p => p.1 ≠ "code")).filter (fun p => p.1 ≠ "state") }
          Method.POST "oauth2/token" env.exchange none).1, Outcome.thrown m) := by
    simp only [initAuthW, hh, hc, hs, Option.isSome_none, Bool.false_eq_true, if_false,
      requestImplW_outcome, hf]
  refine ⟨?_, ?_, ?_⟩
  · rw [hkey]
    exact hw1.1
  · rw [hkey]
  · intro T method url f on401
    constructor <;> simp [requestW, hkey]

/-- Witness for C6 at a concrete aborted exchange. -/
theorem initAuth_failed_exchange_stores_nothing_witness :
    (initAuthW envFix wCallback).1.localTok = none ∧
    (initAuthW envFix wCallback).2 = Outcome.thrown "net down" := by
  have h := initAuth_failed_exchange_stores_nothing envFix wCallback "abc" "st1" "net down"
    rfl rfl rfl rfl
  exact ⟨h.1, h.2.1⟩

/-! Support for the PKCE code-challenge claim: structure of the base64
output, agreement of `encodeBase64Url` with the specification's wording,
and transparency of the form-url encoding on base64url strings. -/

theorem b64Char_mem (n : Nat) : b64Char n ∈ base64Alphabet := by
  unfold b64Char
  rw [List.getD_eq_getElem?_getD]
  cases h : base64Alphabet[n]? with
  | none => decide
  | some ch => exact List.getElem?_mem h

theorem btoaChars_shape_aux :
    ∀ (n : Nat) (bs : List Nat), bs.length ≤ n →
      ∃ s k, btoaChars bs = s ++ List.replicate k '=' ∧ ∀ c ∈ s, c ∈ base64Alphabet := by
  intro n
  induction n with
  | zero =>
    intro bs h
    have hbs : bs = [] := List.eq_nil_of_length_eq_zero (Nat.le_zero.mp h)
    subst hbs
    exact ⟨[], 0, by simp [btoaChars], by simp⟩
  | succ n ih =>
    intro bs h
    match bs with
    | [] => exact ⟨[], 0, by simp [btoaChars], by simp⟩
    | [a] =>
      refine ⟨[b64Char (a / 4), b64Char (a % 4 * 16)], 2, by simp [btoaChars, List.replicate], ?_⟩
      intro c hc
      simp only [List.mem_cons, List.not_mem_nil, or_false] at hc
      rcases hc with rfl | rfl <;> exact b64Char_mem _
    | [a, b] =>
      refine ⟨[b64Char (a / 4), b64Char (a % 4 * 16 + b / 16), b64Char (b % 16 * 4)], 1,
        by simp [btoaChars, List.replicate], ?_⟩
      intro c hc
      simp only [List.mem_cons, List.not_mem_nil, or_false] at hc
      rcases hc with rfl | rfl | rfl <;> exact b64Char_mem _
    | a :: b :: c :: rest =>
      have hr : rest.length ≤ n := by
        simp only [List.length_cons] at h
        omega
      obtain ⟨s, k, he, hm⟩ := ih rest hr
      refine ⟨b64Char (a / 4) :: b64Char (a % 4 * 16 + b / 16) ::
        b64Char (b % 16 * 4 + c / 64) :: b64Char (c % 64) :: s, k, by simp [btoaChars, he], ?_⟩
      intro x hx
      simp only [List.mem_cons] at hx
      rcases hx with rfl | rfl | rfl | rfl | hx
      · exact b64Char_mem _
      · exact b64Char_mem _
      · exact b64Char_mem _
      · exact b64Char_mem _
      · exact hm x hx

theorem btoaChars_shape (bs : List Nat) :
    ∃ s k, btoaChars bs = s ++ List.replicate k '=' ∧ ∀ c ∈ s, c ∈ base64Alphabet :=
  btoaChars_shape_aux bs.length bs (Nat.le_refl _)

theorem alphabet_ne_eq : ∀ c ∈ base64Alphabet, c ≠ '=' := by decide

theorem replicate_eq_takeWhile (k : Nat) :
    (List.replicate k '=').takeWhile (fun c => c ≠ '=') = [] := by
  cases k with
  | zero => rfl
  | succ k => simp [List.replicate_succ]

theorem replicate_eq_filter (k : Nat) :
    (List.replicate k '=').filter (fun c => c ≠ '=') = [] := by
  induction k with
  | zero => rfl
  | succ k ih => simp [List.replicate_succ, List.filter_cons, ih]

theorem encodeBase64Url_shape (bs : List Nat) :
    ∃ s : List Char, encodeBase64Url bs = String.mk ((s.map plusRep).map slashRep) ∧
      ∀ c ∈ s, c ∈ base64Alphabet := by
  obtain ⟨s, k, he, hm⟩ := btoaChars_shape bs
  refine ⟨s, ?_, hm⟩
  unfold encodeBase64Url
  rw [he, List.takeWhile_append_of_pos (by
    intro a ha
    simpa using alphabet_ne_eq a (hm a ha)), replicate_eq_takeWhile, List.append_nil]

theorem encodeBase64Url_eq_spec (bs : List Nat) : encodeBase64Url bs = specBase64Url bs := by
  obtain ⟨s, k, he, hm⟩ := btoaChars_shape bs
  unfold encodeBase64Url specBase64Url
  rw [he, List.takeWhile_append_of_pos (by
      intro a ha
      simpa using alphabet_ne_eq a (hm a ha)),
    replicate_eq_takeWhile, List.append_nil, List.filter_append,
    List.filter_eq_self.mpr (by
      intro a ha
      simpa using alphabet_ne_eq a (hm a ha)),
    replicate_eq_filter, List.append_nil]

theorem formEncodeChar_safe {c : Char} (h : isFormSafe c = true) : formEncodeChar c = [c] := by
  have hs : ¬c = ' ' := by
    intro h0
    subst h0
    exact absurd h (by decide)
  unfold formEncodeChar
  rw [if_neg hs, if_pos h]

theorem formEncodeChars_safe (cs : List Char) (h : ∀ c ∈ cs, isFormSafe c = true) :
    cs.flatMap formEncodeChar = cs := by
  induction cs with
  | nil => rfl
  | cons c t ih =>
    rw [List.flatMap_cons, formEncodeChar_safe (h c (List.mem_cons_self _ _)),
      ih (fun x hx => h x (List.mem_cons_of_mem _ hx))]
    rfl

theorem formEncode_mk_safe (cs : List Char) (h : ∀ c ∈ cs, isFormSafe c = true) :
    formEncode (String.mk cs) = String.mk cs := by
  unfold formEncode
  rw [show (String.mk cs).toList = cs from rfl, formEncodeChars_safe cs h]

theorem alphabet_rep_safe : ∀ c ∈ base64Alphabet, isFormSafe (slashRep (plusRep c)) = true := by
  decide

theorem formEncode_encodeBase64Url (bs : List Nat) :
    formEncode (encodeBase64Url bs) = encodeBase64Url bs := by
  obtain ⟨s, he, hm⟩ := encodeBase64Url_shape bs
  rw [he]
  apply formEncode_mk_safe
  intro c hc
  simp only [List.mem_map] at hc
  obtain ⟨c1, hc1, rfl⟩ := hc
  obtain ⟨c0, hc0, rfl⟩ := hc1
  exact alphabet_rep_safe c0 (hm c0 hc0)

theorem strData_append (a b : String) : (a ++ b).data = a.data ++ b.data := rfl

theorem str_ext {a b : String} (h : a.data = b.data) : a = b := congrArg String.mk h

theorem getHisafeApiUrl_decomp (p : String) : ∃ pre0, getHisafeApiUrl p = pre0 ++ p := by
  simp only [getHisafeApiUrl]
  split
  · exact ⟨_, rfl⟩
  · exact ⟨_, rfl⟩

/-- Claim C1: for every code verifier `getAuthorizeUrl` generates and
stores (under the session key derived from the state nonce), the produced
URL embeds a `code_challenge` query parameter that equals the base64url
encoding — `+` mapped to `-`, `/` mapped to `_`, all `=` padding removed —
of the SHA-256 digest of that verifier. -/
theorem getAuthorizeUrl_embeds_codeChallenge (env : AuthEnv) (w : World) (logout : Bool) :
    ∃ cv pre post,
      storeGet (getAuthorizeUrlW env w logout).1.sessionStorage
        (verifierKey (encodeBase64Url env.rand8)) = some cv ∧
      (getAuthorizeUrlW env w logout).2 =
        pre ++ ("code_challenge=" ++ specBase64Url (env.sha256 (utf8Bytes cv))) ++ post := by
  have hcc : formEncode "code_challenge" ++ "=" ++
      formEncode (generateCodeChallenge env.sha256 (encodeBase64Url env.rand64)) =
      "code_challenge=" ++ specBase64Url (env.sha256 (utf8Bytes (encodeBase64Url env.rand64))) := by
    unfold generateCodeChallenge
    rw [formEncode_encodeBase64Url, encodeBase64Url_eq_spec]
    congr 1
  obtain ⟨pre0, hp⟩ := getHisafeApiUrl_decomp
    ("oauth2/authorize?" ++ urlSearchParamsToString
      [("feature_type", config.featureType),
       ("feature_key", config.featureKey),
       ("response_type", "code"),
       ("client_id", config.clientId),
       ("redirect_uri", locationHref w),
       ("code_challenge_method", "S256"),
       ("code_challenge", generateCodeChallenge env.sha256 (encodeBase64Url env.rand64)),
       ("state", encodeBase64Url env.rand8),
       ("confirm", if logout then "true" else "false")])
  refine ⟨encodeBase64Url env.rand64,
    pre0 ++ "oauth2/authorize?" ++
      (formEncode "feature_type" ++ "=" ++ formEncode config.featureType) ++ "&" ++
      (formEncode "feature_key" ++ "=" ++ formEncode config.featureKey) ++ "&" ++
      (formEncode "response_type" ++ "=" ++ formEncode "code") ++ "&" ++
      (formEncode "client_id" ++ "=" ++ formEncode config.clientId) ++ "&" ++
      (formEncode "redirect_uri" ++ "=" ++ formEncode (locationHref w)) ++ "&" ++
      (formEncode "code_challenge_method" ++ "=" ++ formEncode "S256") ++ "&",
    "&" ++ (formEncode "state" ++ "=" ++ formEncode (encodeBase64Url env.rand8)) ++ "&" ++
      (formEncode "confirm" ++ "=" ++ formEncode (if logout then "true" else "false")),
    ?_, ?_⟩
  · simp only [getAuthorizeUrlW, getAuthorizeUrlCore]
    exact storeGet_storeSet _ _ _
  · simp only [getAuthorizeUrlW, getAuthorizeUrlCore]
    rw [hp]
    simp only [urlSearchParamsToString, List.map, joinAmp]
    rw [hcc]
    apply str_ext
    simp only [strData_append, List.append_assoc]
